import Mathlib

/-!
Verification of the performance/consistency test harness in
`tools/performance-tests` (files `consistency/consistency_test.py` and
`producers/event_producer.py`), as a shallow embedding in Lean.

Conventions of the embedding:
* Python `float` durations and latencies are modelled as `ℚ` (exact
  arithmetic); wall-clock effects (how long a write or a read takes) are
  supplied by an environment record, while `asyncio.sleep(0.1)` contributes
  exactly `1/10` seconds per poll iteration.
* Python dict results are modelled as structures with `Option` fields: a
  key absent from the returned dict is `none`.
* Python `int(x)` on a nonnegative float is `⌊x⌋` (truncation toward zero).
-/

namespace Nedlia

/-! ## ConsistencyTester._single_consistency_test
    (consistency/consistency_test.py, lines 36-91) -/

/-- Environment of one probe invocation: the outcome of the initial
POST `/v1/placements` and, for each poll number `i ≥ 1`, the outcome of the
`i`-th GET `/v1/placements/{id}`.  Durations are the real-time cost of each
call (nonnegative in any actual run, but unconstrained here). -/
structure ProbeEnv where
  /-- `response.status_code` of the write. -/
  writeStatus : ℕ
  /-- `response.json()["data"]["id"]` of a successful write. -/
  placementId : String
  /-- wall-clock seconds from `start_time` to `write_time`. -/
  writeDur : ℚ
  /-- whether the `i`-th GET raises (caught by the `except` clause). -/
  readRaises : ℕ → Bool
  /-- `placement.status_code` of the `i`-th GET. -/
  readStatus : ℕ → ℕ
  /-- whether `data.get("file_url")` is truthy on the `i`-th GET. -/
  readFileUrl : ℕ → Bool
  /-- wall-clock seconds spent in the `i`-th GET. -/
  readDur : ℕ → ℚ

/-- Whether the `i`-th poll observes consistency: the GET does not raise,
returns status 200, and `data.get("file_url")` is truthy
(consistency_test.py lines 70-77). -/
def consistentAt (env : ProbeEnv) (i : ℕ) : Bool :=
  !env.readRaises i && (env.readStatus i == 200) && env.readFileUrl i

/-- `max_polls = int(self.slo * 10)` (consistency_test.py line 61).
Python `int()` truncates toward zero; for the nonnegative SLO values the
harness uses this is the floor.  (A negative SLO gives a nonpositive
`max_polls`, hence zero loop iterations, which `Int.toNat` reproduces.) -/
def maxPolls (slo : ℚ) : ℕ :=
  (⌊slo * 10⌋).toNat

/-- The polling loop `while not consistent and poll_count < max_polls`
(consistency_test.py lines 63-77) starting from `poll_count = count` with
`fuel = max_polls - count` iterations remaining.  Returns the final
`(poll_count, consistent)`. -/
def pollAux (env : ProbeEnv) (count : ℕ) : ℕ → ℕ × Bool
  | 0 => (count, false)
  | fuel + 1 =>
    let c := count + 1
    if consistentAt env c then (c, true) else pollAux env c fuel

/-- Elapsed seconds `end_time - start_time` after the write plus `pc` poll
iterations: each iteration sleeps `0.1` s then performs its GET
(consistency_test.py lines 64-71). -/
def elapsedAfter (env : ProbeEnv) (pc : ℕ) : ℚ :=
  env.writeDur + ((List.range pc).map (fun i => 1 / 10 + env.readDur (i + 1))).sum

/-- Result dict of one probe invocation (consistency_test.py lines 52-57
and 81-91).  `Option` fields model keys that are absent on the
failed-write branch. -/
structure ProbeResult where
  error : Option String := none
  placementId : Option String := none
  writeLatencyMs : Option ℚ := none
  consistencyLatencyMs : Option ℚ := none
  consistent : Bool
  withinSlo : Bool
  pollCount : Option ℕ := none
  deriving Repr, DecidableEq

/-- `_single_consistency_test` (consistency_test.py lines 36-91), with the
HTTP traffic abstracted into `env` and `self.slo` passed as `slo`. -/
def singleConsistencyTest (env : ProbeEnv) (slo : ℚ) : ProbeResult :=
  if env.writeStatus ≠ 201 then
    { error := some "Create failed"
      consistent := false
      withinSlo := false }
  else
    let m := maxPolls slo
    let r := pollAux env 0 m
    let elapsed := elapsedAfter env r.1
    { placementId := some env.placementId
      writeLatencyMs := some (env.writeDur * 1000)
      consistencyLatencyMs := some (elapsed * 1000)
      consistent := r.2
      withinSlo := decide (elapsed ≤ slo)
      pollCount := some r.1 }

/-! ## ConsistencyTester._analyze_results
    (consistency_test.py, lines 93-123) -/

/-- `latencies = [r["consistency_latency_ms"] for r in self.results if
r.get("consistent")]` (consistency_test.py lines 97-99).  For every result
built by `singleConsistencyTest`, `consistent = true` implies the
`consistencyLatencyMs` key is present, so the `filterMap` never drops a
consistent sample. -/
def consistentLatencies (rs : List ProbeResult) : List ℚ :=
  rs.filterMap (fun r => if r.consistent then r.consistencyLatencyMs else none)

/-- Python `min(l)` on a nonempty list (raises on `[]`; the harness only
reaches it with a nonempty list, modelled by a default of `0`). -/
def pymin : List ℚ → ℚ
  | [] => 0
  | x :: xs => xs.foldl min x

/-- Python `max(l)` on a nonempty list (raises on `[]`; the harness only
reaches it with a nonempty list, modelled by a default of `0`). -/
def pymax : List ℚ → ℚ
  | [] => 0
  | x :: xs => xs.foldl max x

/-- Return value of `_analyze_results`: the three distinct dict shapes of
consistency_test.py lines 94-123. -/
inductive AnalysisResult where
  /-- the dict `{"error": "No results"}` (line 95). -/
  | noResults : AnalysisResult
  /-- the dict of lines 102-107: zero consistent samples,
  `slo_percentage = 0`, `error = "No events reached consistency"`. -/
  | noConsistent (totalEvents : ℕ) : AnalysisResult
  /-- the full statistics dict of lines 112-123. -/
  | stats (totalEvents consistentCount withinSloCount : ℕ)
      (sloPercentage p50 p90 p99 maxLatency minLatency : ℚ) : AnalysisResult
  deriving Repr, DecidableEq

/-- `sorted_latencies = sorted(latencies)` (consistency_test.py line 109),
over the consistent samples. -/
def sortedLatencies (rs : List ProbeResult) : List ℚ :=
  (consistentLatencies rs).mergeSort (fun a b => a ≤ b)

/-- `_analyze_results` (consistency_test.py lines 93-123).  The percentile
indices `int(n * 0.9)` and `int(n * 0.99)` are modelled with exact
arithmetic as `⌊9n/10⌋` and `⌊99n/100⌋` (natural-number division on
`n = len(sorted_latencies)`). -/
def analyzeResults (rs : List ProbeResult) : AnalysisResult :=
  if rs.isEmpty then .noResults
  else if (consistentLatencies rs).isEmpty then .noConsistent rs.length
  else
    .stats rs.length
      (rs.countP (·.consistent))
      (rs.countP (·.withinSlo))
      ((rs.countP (·.withinSlo) : ℚ) / (rs.length : ℚ) * 100)
      ((sortedLatencies rs).getD ((sortedLatencies rs).length / 2) 0)
      ((sortedLatencies rs).getD (9 * (sortedLatencies rs).length / 10) 0)
      (if 100 < (sortedLatencies rs).length then
        (sortedLatencies rs).getD (99 * (sortedLatencies rs).length / 100) 0
      else (sortedLatencies rs).getLast?.getD 0)
      (pymax (consistentLatencies rs))
      (pymin (consistentLatencies rs))

/-- `test_placement_consistency` (consistency_test.py lines 24-34):
`asyncio.gather(*tasks, return_exceptions=True)` yields one outcome per
probe — either a result dict (`Except.ok`) or a raised exception
(`Except.error`); the list comprehension keeps only the dicts, and the
aggregate is computed over those. -/
def testPlacementConsistency (outcomes : List (Except String ProbeResult)) :
    AnalysisResult :=
  let results := outcomes.filterMap (fun o => o.toOption)
  analyzeResults results

/-! ## EventProducer
    (producers/event_producer.py, lines 18-104) -/

/-- `ProducerConfig` (event_producer.py lines 18-24).  The integer fields
are counts and are modelled as `ℕ`. -/
structure ProducerConfig where
  eventsPerSecond : ℕ
  durationSeconds : ℕ
  eventType : String := "placement.created"
  rampUpSeconds : ℕ := 60
  eventBusName : String := "nedlia-events"
  deriving Repr, DecidableEq

/-- `ProducerReport` (event_producer.py lines 27-34). -/
structure ProducerReport where
  totalEvents : ℕ
  targetRate : ℕ
  actualRate : ℚ
  durationSeconds : ℚ
  errors : ℕ
  deriving Repr, DecidableEq

/-- Mutable producer state: `self.produced_events` (kept as the list of
attempt indices of the successfully published events) and `self.errors`
(event_producer.py lines 47-48). -/
structure ProducerState where
  producedEvents : List ℕ
  errors : ℕ
  deriving Repr, DecidableEq

/-- State of a freshly constructed `EventProducer`
(event_producer.py lines 40-48): empty success list, zero errors. -/
def initState : ProducerState :=
  { producedEvents := [], errors := 0 }

/-- Ramp-up logic of the loop body (event_producer.py lines 65-73):
`current_rate = max(1, events_per_second * (elapsed / ramp_up_seconds))`
while `elapsed < ramp_up_seconds`, else `events_per_second`. -/
def currentRate (cfg : ProducerConfig) (elapsed : ℚ) : ℚ :=
  if elapsed < (cfg.rampUpSeconds : ℚ) then
    max 1 ((cfg.eventsPerSecond : ℚ) * (elapsed / (cfg.rampUpSeconds : ℚ)))
  else
    (cfg.eventsPerSecond : ℚ)

/-- `interval = 1.0 / current_rate` (event_producer.py line 75), the
seconds slept after each emission. -/
def interval (cfg : ProducerConfig) (elapsed : ℚ) : ℚ :=
  1 / currentRate cfg elapsed

/-- One loop-body iteration at attempt index `sent` (event_producer.py
lines 77-84): publish the fresh event, append it to `produced_events` on
success, else increment `errors`.  The rate computation and the sleep of
the same iteration affect timing only, not the counters. -/
def step (publishOk : ℕ → Bool) (sent : ℕ) (st : ProducerState) : ProducerState :=
  if publishOk sent then
    { st with producedEvents := st.producedEvents ++ [sent] }
  else
    { st with errors := st.errors + 1 }

/-- Body-count form of the run loop: perform `fuel` iterations starting at
`events_sent = sent`.  Returns the final `(events_sent, state)`. -/
def runIters (publishOk : ℕ → Bool) (sent : ℕ) (st : ProducerState) :
    ℕ → ℕ × ProducerState
  | 0 => (sent, st)
  | fuel + 1 => runIters publishOk (sent + 1) (step publishOk sent st) fuel

/-- The loop `while events_sent < total_events` (event_producer.py
lines 62-90), entered with `events_sent = sent`. -/
def runWhile (publishOk : ℕ → Bool) (total sent : ℕ) (st : ProducerState) :
    ℕ × ProducerState :=
  runIters publishOk sent st (total - sent)

/-- `EventProducer.run` (event_producer.py lines 51-104): a pair of the
final mutable state and the returned report.  `publishOk i` is whether the
`i`-th `_publish_event` succeeds, `actualDuration` the wall-clock
`end_time - start_time`. -/
def run (cfg : ProducerConfig) (publishOk : ℕ → Bool) (actualDuration : ℚ)
    (st : ProducerState) : ProducerState × ProducerReport :=
  let total := cfg.eventsPerSecond * cfg.durationSeconds
  let st' := (runWhile publishOk total 0 st).2
  (st',
    { totalEvents := st'.producedEvents.length
      targetRate := cfg.eventsPerSecond
      actualRate := (st'.producedEvents.length : ℚ) / actualDuration
      durationSeconds := actualDuration
      errors := st'.errors })

/-! ## Concrete fixtures used to instantiate the theorems -/

/-- Environment whose write is rejected with status 500. -/
def envWriteFail : ProbeEnv :=
  { writeStatus := 500, placementId := "p", writeDur := 0,
    readRaises := fun _ => false, readStatus := fun _ => 200,
    readFileUrl := fun _ => false, readDur := fun _ => 0 }

/-- Environment whose write succeeds but whose reads never observe the
`file_url` field: the probe can only time out. -/
def envNeverConsistent : ProbeEnv :=
  { writeStatus := 201, placementId := "p", writeDur := 0,
    readRaises := fun _ => false, readStatus := fun _ => 500,
    readFileUrl := fun _ => false, readDur := fun _ => 0 }

/-- Environment whose write succeeds and whose third read observes the
`file_url` field. -/
def envThird : ProbeEnv :=
  { writeStatus := 201, placementId := "p", writeDur := 0,
    readRaises := fun _ => false, readStatus := fun _ => 200,
    readFileUrl := fun i => i == 3, readDur := fun _ => 0 }

/-- Sample consistent probe result with a 5 ms consistency latency. -/
def rOk : ProbeResult :=
  { consistent := true, withinSlo := true, consistencyLatencyMs := some 5 }

/-- Sample non-consistent probe result. -/
def rBad : ProbeResult :=
  { consistent := false, withinSlo := false }

/-- Producer configuration `events_per_second=10, duration_seconds=2,
ramp_up_seconds=0`. -/
def cfgBurst : ProducerConfig :=
  { eventsPerSecond := 10, durationSeconds := 2, rampUpSeconds := 0 }

/-- Producer configuration `events_per_second=1, duration_seconds=1`. -/
def cfgSingle : ProducerConfig :=
  { eventsPerSecond := 1, durationSeconds := 1 }

/-- Producer configuration with the module defaults
`EVENTS_PER_SECOND=100, DURATION_SECONDS=300, RAMP_UP_SECONDS=60`. -/
def cfgDefault : ProducerConfig :=
  { eventsPerSecond := 100, durationSeconds := 300 }

/-! ## Helper lemmas -/

/-- Unfolding of a probe invocation whose write succeeded. -/
lemma singleConsistencyTest_of_created (env : ProbeEnv) (slo : ℚ)
    (h : env.writeStatus = 201) :
    singleConsistencyTest env slo =
      { placementId := some env.placementId
        writeLatencyMs := some (env.writeDur * 1000)
        consistencyLatencyMs :=
          some (elapsedAfter env (pollAux env 0 (maxPolls slo)).1 * 1000)
        consistent := (pollAux env 0 (maxPolls slo)).2
        withinSlo := decide (elapsedAfter env (pollAux env 0 (maxPolls slo)).1 ≤ slo)
        pollCount := some (pollAux env 0 (maxPolls slo)).1 } := by
  rw [singleConsistencyTest, if_neg (by simp [h])]

/-- The polling loop that exits non-consistent has exhausted its fuel and
seen no consistent read. -/
lemma pollAux_eq_false (env : ProbeEnv) :
    ∀ fuel count, (pollAux env count fuel).2 = false →
      (pollAux env count fuel).1 = count + fuel ∧
      ∀ i, count < i → i ≤ count + fuel → consistentAt env i = false := by
  intro fuel
  induction fuel with
  | zero => intro count _; exact ⟨rfl, fun i h1 h2 => absurd (lt_of_lt_of_le h1 h2) (lt_irrefl _)⟩
  | succ f ih =>
    intro count h
    rw [pollAux] at h ⊢
    by_cases hc : consistentAt env (count + 1)
    · simp [hc] at h
    · rw [if_neg hc] at h ⊢
      obtain ⟨h1, h2⟩ := ih (count + 1) h
      refine ⟨by omega, fun i hi1 hi2 => ?_⟩
      rcases Nat.eq_or_lt_of_le hi1 with heq | hlt
      · subst heq; simpa using hc
      · exact h2 i hlt (by omega)

/-- The polling loop that exits consistent stops at the first poll whose
read satisfies the predicate, within its fuel. -/
lemma pollAux_eq_true (env : ProbeEnv) :
    ∀ fuel count, (pollAux env count fuel).2 = true →
      count < (pollAux env count fuel).1 ∧
      (pollAux env count fuel).1 ≤ count + fuel ∧
      consistentAt env (pollAux env count fuel).1 = true ∧
      ∀ i, count < i → i < (pollAux env count fuel).1 → consistentAt env i = false := by
  intro fuel
  induction fuel with
  | zero => intro count h; simp [pollAux] at h
  | succ f ih =>
    intro count h
    rw [pollAux] at h ⊢
    by_cases hc : consistentAt env (count + 1)
    · rw [if_pos hc] at h ⊢
      exact ⟨by omega, by omega, hc, fun i h1 h2 => by omega⟩
    · rw [if_neg hc] at h ⊢
      obtain ⟨h1, h2, h3, h4⟩ := ih (count + 1) h
      refine ⟨by omega, by omega, h3, fun i hi1 hi2 => ?_⟩
      rcases Nat.eq_or_lt_of_le hi1 with heq | hlt
      · subst heq; simpa using hc
      · exact h4 i hlt hi2

/-- Evaluation of `maxPolls` at SLO `5.0` (the default). -/
lemma maxPolls_five : maxPolls 5 = 50 := by
  rw [maxPolls, show ((5 : ℚ) * 10) = 50 by norm_num,
    show ⌊(50 : ℚ)⌋ = 50 by norm_num]
  rfl

/-- Evaluation of `maxPolls` at SLO `0.55` seconds. -/
lemma maxPolls_eleven_twentieths : maxPolls (11 / 20) = 5 := by
  rw [maxPolls, show ((11 : ℚ) / 20 * 10) = 11 / 2 by norm_num,
    show ⌊(11 : ℚ) / 2⌋ = 5 by norm_num]
  rfl

/-- Evaluation of `maxPolls` at SLO `0.01` seconds. -/
lemma maxPolls_hundredth : maxPolls (1 / 100) = 0 := by
  rw [maxPolls, show ((1 : ℚ) / 100 * 10) = 1 / 10 by norm_num,
    show ⌊(1 : ℚ) / 10⌋ = 0 by norm_num]
  rfl

/-- Fidelity of `runWhile` to the source's `while events_sent <
total_events` loop: it satisfies the loop's defining recurrence. -/
lemma runWhile_eq (pub : ℕ → Bool) (total sent : ℕ) (st : ProducerState) :
    runWhile pub total sent st =
      if sent < total then runWhile pub total (sent + 1) (step pub sent st)
      else (sent, st) := by
  rw [runWhile, runWhile]
  by_cases h : sent < total
  · rw [if_pos h, show total - sent = (total - (sent + 1)) + 1 by omega]
    rfl
  · rw [if_neg h, show total - sent = 0 by omega]
    rfl

/-- The loop counter advances by exactly the number of iterations. -/
lemma runIters_fst (pub : ℕ → Bool) :
    ∀ fuel sent st, (runIters pub sent st fuel).1 = sent + fuel := by
  intro fuel
  induction fuel with
  | zero => intro sent st; rfl
  | succ f ih => intro sent st; rw [runIters, ih]; omega

/-- Each iteration adds exactly one to `len(produced_events) + errors`. -/
lemma runIters_accounting (pub : ℕ → Bool) :
    ∀ fuel sent st,
      (runIters pub sent st fuel).2.producedEvents.length +
        (runIters pub sent st fuel).2.errors =
      st.producedEvents.length + st.errors + fuel := by
  intro fuel
  induction fuel with
  | zero => intro sent st; rfl
  | succ f ih =>
    intro sent st
    rw [runIters, ih]
    rw [step]
    by_cases h : pub sent
    · rw [if_pos h]; simp; omega
    · rw [if_neg h]; simp; omega

/-- Against a sink failing every call, no iteration appends a produced
event and every iteration increments `errors`. -/
lemma runIters_all_fail :
    ∀ fuel sent st,
      (runIters (fun _ => false) sent st fuel).2.producedEvents =
        st.producedEvents ∧
      (runIters (fun _ => false) sent st fuel).2.errors = st.errors + fuel := by
  intro fuel
  induction fuel with
  | zero => intro sent st; exact ⟨rfl, rfl⟩
  | succ f ih =>
    intro sent st
    rw [runIters, step, if_neg Bool.false_ne_true]
    obtain ⟨h1, h2⟩ := ih (sent + 1) { st with errors := st.errors + 1 }
    refine ⟨h1, ?_⟩
    rw [h2]
    show st.errors + 1 + f = st.errors + (f + 1)
    omega

/-- Against a sink succeeding every call, every iteration appends a
produced event and no iteration increments `errors`. -/
lemma runIters_all_ok :
    ∀ fuel sent st,
      (runIters (fun _ => true) sent st fuel).2.producedEvents.length =
        st.producedEvents.length + fuel ∧
      (runIters (fun _ => true) sent st fuel).2.errors = st.errors := by
  intro fuel
  induction fuel with
  | zero => intro sent st; exact ⟨rfl, rfl⟩
  | succ f ih =>
    intro sent st
    rw [runIters, step, if_pos rfl]
    obtain ⟨h1, h2⟩ := ih (sent + 1) { st with producedEvents := st.producedEvents ++ [sent] }
    refine ⟨?_, h2⟩
    rw [h1]
    show (st.producedEvents ++ [sent]).length + f = st.producedEvents.length + (f + 1)
    simp
    omega

/-- Elements of a `(· ≤ ·)`-sorted list are monotone in the index, stated
for `getD`. -/
lemma sorted_getD_mono (l : List ℚ) (hs : l.Sorted (· ≤ ·)) (i j : ℕ)
    (hij : i ≤ j) (hj : j < l.length) : l.getD i 0 ≤ l.getD j 0 := by
  have hi : i < l.length := lt_of_le_of_lt hij hj
  rw [List.getD_eq_getElem l 0 hi, List.getD_eq_getElem l 0 hj]
  have := hs.rel_get_of_le (a := ⟨i, hi⟩) (b := ⟨j, hj⟩) hij
  simpa [List.get_eq_getElem] using this

/-- In-range `getD` produces a member of the list. -/
lemma getD_mem (l : List ℚ) (i : ℕ) (hi : i < l.length) : l.getD i 0 ∈ l := by
  rw [List.getD_eq_getElem l 0 hi]
  exact List.getElem_mem hi

/-- A left fold with `min` bounds its seed and every list member from
below. -/
lemma foldl_min_le (xs : List ℚ) :
    ∀ x, xs.foldl min x ≤ x ∧ ∀ a ∈ xs, xs.foldl min x ≤ a := by
  induction xs with
  | nil => intro x; exact ⟨le_refl x, fun a ha => absurd ha (List.not_mem_nil a)⟩
  | cons y ys ih =>
    intro x
    rw [List.foldl_cons]
    obtain ⟨h1, h2⟩ := ih (min x y)
    refine ⟨le_trans h1 (min_le_left x y), fun a ha => ?_⟩
    rcases List.mem_cons.mp ha with h | h
    · rw [h]; exact le_trans h1 (min_le_right x y)
    · exact h2 a h

/-- A left fold with `max` bounds its seed and every list member from
above. -/
lemma le_foldl_max (xs : List ℚ) :
    ∀ x, x ≤ xs.foldl max x ∧ ∀ a ∈ xs, a ≤ xs.foldl max x := by
  induction xs with
  | nil => intro x; exact ⟨le_refl x, fun a ha => absurd ha (List.not_mem_nil a)⟩
  | cons y ys ih =>
    intro x
    rw [List.foldl_cons]
    obtain ⟨h1, h2⟩ := ih (max x y)
    refine ⟨le_trans (le_max_left x y) h1, fun a ha => ?_⟩
    rcases List.mem_cons.mp ha with h | h
    · rw [h]; exact le_trans (le_max_right x y) h1
    · exact h2 a h

/-- Python `min` of a nonempty list bounds every member from below. -/
lemma pymin_le_mem (l : List ℚ) (a : ℚ) (ha : a ∈ l) : pymin l ≤ a := by
  cases l with
  | nil => exact absurd ha (List.not_mem_nil a)
  | cons x xs =>
    rw [pymin]
    rcases List.mem_cons.mp ha with h | h
    · exact h ▸ (foldl_min_le xs x).1
    · exact (foldl_min_le xs x).2 a h

/-- Python `max` of a nonempty list bounds every member from above. -/
lemma mem_le_pymax (l : List ℚ) (a : ℚ) (ha : a ∈ l) : a ≤ pymax l := by
  cases l with
  | nil => exact absurd ha (List.not_mem_nil a)
  | cons x xs =>
    rw [pymax]
    rcases List.mem_cons.mp ha with h | h
    · exact h ▸ (le_foldl_max xs x).1
    · exact (le_foldl_max xs x).2 a h

/-! ## Claim theorems -/

/-- C1 (counterexample): with a successful write, a tiny SLO of `0.01` s
(`max_polls = 0`) and reads that never observe consistency, the code
reports `within_slo = true` even though `consistent = false` and the
consistency latency (0 ms) is within `slo*1000`; the claimed equivalence
`within_slo ↔ latency ≤ slo*1000 ∧ consistent` is therefore false: the
code never consults `consistent`. -/
theorem withinSlo_true_despite_inconsistent :
    (singleConsistencyTest envNeverConsistent (1 / 100)).consistent = false ∧
    (singleConsistencyTest envNeverConsistent (1 / 100)).withinSlo = true ∧
    (singleConsistencyTest envNeverConsistent (1 / 100)).consistencyLatencyMs =
      some 0 ∧
    ((0 : ℚ) ≤ (1 / 100) * 1000) := by
  rw [singleConsistencyTest_of_created envNeverConsistent _ rfl, maxPolls_hundredth]
  have he : elapsedAfter envNeverConsistent (pollAux envNeverConsistent 0 0).1 = 0 := by
    rw [show (pollAux envNeverConsistent 0 0).1 = 0 from rfl, elapsedAfter]
    simp [envNeverConsistent]
  refine ⟨rfl, ?_, ?_, by norm_num⟩
  · show decide (elapsedAfter envNeverConsistent (pollAux envNeverConsistent 0 0).1 ≤ 1 / 100) = true
    rw [he]
    simp only [decide_eq_true_eq]
    norm_num
  · show some (elapsedAfter envNeverConsistent (pollAux envNeverConsistent 0 0).1 * 1000) = some 0
    rw [he, zero_mul]

/-- C1 (amended): for every completed probe (successful write),
`within_slo` is true iff `consistency_latency_ms ≤ slo_seconds * 1000`;
the code compares only the elapsed time against the SLO and does not
require `consistent` to be true. -/
theorem withinSlo_iff_latency_le (env : ProbeEnv) (slo : ℚ)
    (h : env.writeStatus = 201) :
    (singleConsistencyTest env slo).withinSlo = true ↔
      ∃ l, (singleConsistencyTest env slo).consistencyLatencyMs = some l ∧
        l ≤ slo * 1000 := by
  rw [singleConsistencyTest_of_created env slo h]
  show decide (elapsedAfter env (pollAux env 0 (maxPolls slo)).1 ≤ slo) = true ↔
    ∃ l, some (elapsedAfter env (pollAux env 0 (maxPolls slo)).1 * 1000) = some l ∧
      l ≤ slo * 1000
  simp only [decide_eq_true_eq, Option.some.injEq]
  constructor
  · intro hle
    exact ⟨_, rfl, by rw [mul_le_mul_right (by norm_num : (0 : ℚ) < 1000)]; exact hle⟩
  · rintro ⟨l, rfl, hl⟩
    rw [mul_le_mul_right (by norm_num : (0 : ℚ) < 1000)] at hl
    exact hl

/-- C1 (witness): the amended equivalence instantiated at the concrete
never-consistent environment with SLO `0.01` s. -/
theorem withinSlo_iff_latency_le_witness :
    (singleConsistencyTest envNeverConsistent (1 / 100)).withinSlo = true ↔
      ∃ l, (singleConsistencyTest envNeverConsistent (1 / 100)).consistencyLatencyMs =
        some l ∧ l ≤ (1 / 100) * 1000 :=
  withinSlo_iff_latency_le envNeverConsistent (1 / 100) rfl

/-- C2 (counterexample): the failed-write result dict has no `poll_count`
key at all (modelled as `none`), not `poll_count = 0` as claimed. -/
theorem write_failed_pollCount_absent :
    (singleConsistencyTest envWriteFail 5).pollCount = none ∧
    (singleConsistencyTest envWriteFail 5).pollCount ≠ some 0 ∧
    envWriteFail.writeStatus ≠ 201 := by
  rw [singleConsistencyTest, if_pos (by decide : envWriteFail.writeStatus ≠ 201)]
  exact ⟨rfl, by simp, by decide⟩

/-- C2 (amended): a probe whose write returns a non-201 status returns
immediately (no polls are performed) with `consistent = false`,
`within_slo = false`, an `error` message, and neither a `placement_id` nor
a `poll_count` key in the result. -/
theorem write_failed_result (env : ProbeEnv) (slo : ℚ)
    (h : env.writeStatus ≠ 201) :
    singleConsistencyTest env slo =
      { error := some "Create failed", placementId := none,
        writeLatencyMs := none, consistencyLatencyMs := none,
        consistent := false, withinSlo := false, pollCount := none } := by
  rw [singleConsistencyTest, if_pos h]

/-- C2 (witness): the failed-write contract instantiated at the concrete
environment whose write returns 500. -/
theorem write_failed_result_witness :
    singleConsistencyTest envWriteFail 5 =
      { error := some "Create failed", placementId := none,
        writeLatencyMs := none, consistencyLatencyMs := none,
        consistent := false, withinSlo := false, pollCount := none } :=
  write_failed_result envWriteFail 5 (by decide)

/-- C3 (counterexample): with `slo_seconds = 0.55` the code's bound is
`int(slo*10) = 5`, not `ceil(slo*10) = 6`: against reads that never
observe consistency the probe reports non-consistent after exactly 5
polls, strictly below the claimed ceiling bound. -/
theorem polling_stops_at_floor_not_ceil :
    (singleConsistencyTest envNeverConsistent (11 / 20)).consistent = false ∧
    (singleConsistencyTest envNeverConsistent (11 / 20)).pollCount = some 5 ∧
    (5 : ℤ) < ⌈(11 / 20 : ℚ) * 10⌉ := by
  rw [singleConsistencyTest_of_created envNeverConsistent _ rfl,
    maxPolls_eleven_twentieths]
  have hc : ⌈(11 / 20 : ℚ) * 10⌉ = 6 := by
    rw [show ((11 : ℚ) / 20 * 10) = 11 / 2 by norm_num, Int.ceil_eq_iff]
    norm_num
  exact ⟨by decide, by decide, by rw [hc]; norm_num⟩

/-- C3 (amended): after a successful write the polling loop sleeps 100 ms
before each read and repeats until the consistency predicate holds or
`poll_count` reaches `int(slo_seconds * 10)` — the floor of `slo*10` for
nonnegative SLOs, not its ceiling; only on reaching that floor bound does
the probe report a non-consistent (timed-out) result, and the reported
latency is the elapsed time of the polls actually performed. -/
theorem polling_loop_spec (env : ProbeEnv) (slo : ℚ)
    (h : env.writeStatus = 201) :
    ((singleConsistencyTest env slo).consistent = false →
      (singleConsistencyTest env slo).pollCount = some (maxPolls slo) ∧
      ∀ i, 1 ≤ i → i ≤ maxPolls slo → consistentAt env i = false) ∧
    ((singleConsistencyTest env slo).consistent = true →
      ∃ pc, (singleConsistencyTest env slo).pollCount = some pc ∧
        1 ≤ pc ∧ pc ≤ maxPolls slo ∧ consistentAt env pc = true ∧
        ∀ i, 1 ≤ i → i < pc → consistentAt env i = false) ∧
    (∀ pc, (singleConsistencyTest env slo).pollCount = some pc →
      (singleConsistencyTest env slo).consistencyLatencyMs =
        some (elapsedAfter env pc * 1000)) ∧
    (0 ≤ slo → (maxPolls slo : ℤ) = ⌊slo * 10⌋) := by
  rw [singleConsistencyTest_of_created env slo h]
  refine ⟨?_, ?_, ?_, ?_⟩
  · intro hf
    obtain ⟨h1, h2⟩ := pollAux_eq_false env (maxPolls slo) 0 hf
    rw [zero_add] at h1 h2
    exact ⟨by rw [h1], fun i hi1 hi2 => h2 i hi1 hi2⟩
  · intro ht
    obtain ⟨h1, h2, h3, h4⟩ := pollAux_eq_true env (maxPolls slo) 0 ht
    rw [zero_add] at h2
    exact ⟨(pollAux env 0 (maxPolls slo)).1, rfl, h1, h2, h3,
      fun i hi1 hi2 => h4 i hi1 hi2⟩
  · intro pc hpc
    have : (pollAux env 0 (maxPolls slo)).1 = pc := by
      injection hpc
    rw [this]
  · intro h0
    rw [maxPolls]
    exact Int.toNat_of_nonneg (Int.le_floor.mpr (by
      rw [Int.cast_zero]
      exact mul_nonneg h0 (by norm_num)))

/-- C3 (witness): the amended polling contract instantiated at the
environment whose third read observes consistency, with the default SLO of
5 s, yielding `poll_count = 3` well inside the bound of 50. -/
theorem polling_loop_spec_witness :
    ∃ pc, (singleConsistencyTest envThird 5).pollCount = some pc ∧
      1 ≤ pc ∧ pc ≤ maxPolls 5 ∧ consistentAt envThird pc = true ∧
      ∀ i, 1 ≤ i → i < pc → consistentAt envThird i = false :=
  (polling_loop_spec envThird 5 rfl).2.1 (by
    rw [singleConsistencyTest_of_created envThird 5 rfl, maxPolls_five]
    decide)

/-- C4 (counterexample): with `events_per_second=1, duration_seconds=1`
and a sink failing every call, the returned report has `errors = 1` but
`total_events = 0` — the report's `total_events` field counts successful
publishes (`len(self.produced_events)`), so `errors == total_events` is
false. -/
theorem run_all_fail_errors_ne_totalEvents :
    (run cfgSingle (fun _ => false) 1 initState).2.errors = 1 ∧
    (run cfgSingle (fun _ => false) 1 initState).2.totalEvents = 0 ∧
    (run cfgSingle (fun _ => false) 1 initState).2.errors ≠
      (run cfgSingle (fun _ => false) 1 initState).2.totalEvents := by
  refine ⟨by decide, by decide, by decide⟩

/-- C4 (amended): against a sink failing every call, `run()` terminates
after exactly `events_per_second * duration_seconds` publish attempts, and
the report has `errors = events_per_second * duration_seconds` and
`total_events = 0` (the `total_events` field counts successful publishes,
none of which occurred). -/
theorem run_all_fail_report (cfg : ProducerConfig) (dur : ℚ) :
    (run cfg (fun _ => false) dur initState).2.errors =
      cfg.eventsPerSecond * cfg.durationSeconds ∧
    (run cfg (fun _ => false) dur initState).2.totalEvents = 0 ∧
    (runWhile (fun _ => false)
      (cfg.eventsPerSecond * cfg.durationSeconds) 0 initState).1 =
      cfg.eventsPerSecond * cfg.durationSeconds := by
  obtain ⟨h1, h2⟩ :=
    runIters_all_fail (cfg.eventsPerSecond * cfg.durationSeconds) 0 initState
  refine ⟨?_, ?_, ?_⟩
  · show (runWhile (fun _ => false) (cfg.eventsPerSecond * cfg.durationSeconds)
      0 initState).2.errors = cfg.eventsPerSecond * cfg.durationSeconds
    rw [runWhile, Nat.sub_zero, h2]
    simp [initState]
  · show (runWhile (fun _ => false) (cfg.eventsPerSecond * cfg.durationSeconds)
      0 initState).2.producedEvents.length = 0
    rw [runWhile, Nat.sub_zero, h1]
    simp [initState]
  · rw [runWhile, Nat.sub_zero, runIters_fst]
    omega

/-- C4 (witness): the always-failing-sink contract instantiated at
`events_per_second=1, duration_seconds=1`. -/
theorem run_all_fail_report_witness :
    (run cfgSingle (fun _ => false) 1 initState).2.errors = 1 ∧
    (run cfgSingle (fun _ => false) 1 initState).2.totalEvents = 0 := by
  have h := run_all_fail_report cfgSingle 1
  exact ⟨by simpa [cfgSingle] using h.1, h.2.1⟩

/-- C7: with `events_per_second=10, duration_seconds=2, ramp_up_seconds=0`
and an always-succeeding sink, the report has exactly `total_events = 20`
and `errors = 0`; moreover, termination is count-based: for any sink
behaviour and any starting state, the loop exits exactly when
`events_sent` reaches `events_per_second * duration_seconds`. -/
theorem run_burst_twenty :
    (run cfgBurst (fun _ => true) 2 initState).2.totalEvents = 20 ∧
    (run cfgBurst (fun _ => true) 2 initState).2.errors = 0 ∧
    ∀ (pub : ℕ → Bool) (total : ℕ) (st : ProducerState),
      (runWhile pub total 0 st).1 = total := by
  refine ⟨by decide, by decide, fun pub total st => ?_⟩
  rw [runWhile, Nat.sub_zero, runIters_fst]
  omega

/-- C7 (witness): the count-based-termination clause instantiated at the
concrete 20-attempt loop. -/
theorem run_burst_twenty_witness :
    (runWhile (fun _ => true) 20 0 initState).1 = 20 :=
  run_burst_twenty.2.2 (fun _ => true) 20 initState

/-- C8: for a positive target rate and a positive ramp-up window, the
effective rate `max(1, R * elapsed / ramp_up)` used while
`elapsed < ramp_up` (and `R` afterwards) is monotonically non-decreasing
in `elapsed`, equals `R` exactly at `elapsed = ramp_up`, is floored at 1
event/s, and hence the inter-event delay `1 / rate` is always in `(0, 1]`
— never zero or negative. -/
theorem currentRate_spec (cfg : ProducerConfig)
    (hR : 1 ≤ cfg.eventsPerSecond) (hramp : 1 ≤ cfg.rampUpSeconds) :
    (∀ e₁ e₂ : ℚ, e₁ ≤ e₂ → currentRate cfg e₁ ≤ currentRate cfg e₂) ∧
    currentRate cfg (cfg.rampUpSeconds : ℚ) = (cfg.eventsPerSecond : ℚ) ∧
    (∀ e : ℚ, 1 ≤ currentRate cfg e) ∧
    (∀ e : ℚ, 0 < interval cfg e ∧ interval cfg e ≤ 1) := by
  have hR' : (1 : ℚ) ≤ (cfg.eventsPerSecond : ℚ) := by exact_mod_cast hR
  have hRpos : (0 : ℚ) ≤ (cfg.eventsPerSecond : ℚ) :=
    le_trans zero_le_one hR'
  have hramp1 : (1 : ℚ) ≤ (cfg.rampUpSeconds : ℚ) := by exact_mod_cast hramp
  have hrampPos : (0 : ℚ) < (cfg.rampUpSeconds : ℚ) :=
    lt_of_lt_of_le zero_lt_one hramp1
  have hone : ∀ e : ℚ, 1 ≤ currentRate cfg e := by
    intro e
    rw [currentRate]
    by_cases hb : e < (cfg.rampUpSeconds : ℚ)
    · rw [if_pos hb]; exact le_max_left _ _
    · rw [if_neg hb]; exact hR'
  refine ⟨?_, ?_, hone, ?_⟩
  · intro e₁ e₂ h12
    rw [currentRate, currentRate]
    by_cases h1 : e₁ < (cfg.rampUpSeconds : ℚ)
    · by_cases h2 : e₂ < (cfg.rampUpSeconds : ℚ)
      · rw [if_pos h1, if_pos h2]
        exact max_le_max (le_refl 1)
          (mul_le_mul_of_nonneg_left
            ((div_le_div_iff_of_pos_right hrampPos).mpr h12) hRpos)
      · rw [if_pos h1, if_neg h2]
        refine max_le hR' ?_
        calc (cfg.eventsPerSecond : ℚ) * (e₁ / (cfg.rampUpSeconds : ℚ))
            ≤ (cfg.eventsPerSecond : ℚ) * 1 :=
              mul_le_mul_of_nonneg_left
                ((div_le_one hrampPos).mpr (le_of_lt h1)) hRpos
          _ = (cfg.eventsPerSecond : ℚ) := mul_one _
    · rw [if_neg h1]
      by_cases h2 : e₂ < (cfg.rampUpSeconds : ℚ)
      · exact absurd (lt_of_le_of_lt h12 h2) h1
      · rw [if_neg h2]
  · rw [currentRate, if_neg (lt_irrefl _)]
  · intro e
    have h1 := hone e
    have hpos : (0 : ℚ) < currentRate cfg e := lt_of_lt_of_le zero_lt_one h1
    constructor
    · rw [interval]
      exact div_pos zero_lt_one hpos
    · rw [interval, div_le_one hpos]
      exact h1

/-- C8 (witness): the rate contract instantiated at the default
configuration (`R=100`, ramp-up 60 s), evaluated at the end of the
ramp-up window. -/
theorem currentRate_spec_witness :
    currentRate cfgDefault (cfgDefault.rampUpSeconds : ℚ) =
      (cfgDefault.eventsPerSecond : ℚ) :=
  (currentRate_spec cfgDefault (by decide) (by decide)).2.1

/-- C10: for a freshly constructed producer every attempted emission is
counted exactly once as a success or an error, so the report satisfies
`total_events + errors = events_per_second * duration_seconds`; across a
second `run()` of the same instance the success list and error counter
are not reset, so the second report's sum is twice the attempt count
rather than the attempt count. -/
theorem run_accounting (cfg : ProducerConfig) (pub1 pub2 : ℕ → Bool)
    (d1 d2 : ℚ) :
    (run cfg pub1 d1 initState).2.totalEvents +
      (run cfg pub1 d1 initState).2.errors =
      cfg.eventsPerSecond * cfg.durationSeconds ∧
    (run cfg pub2 d2 (run cfg pub1 d1 initState).1).2.totalEvents +
      (run cfg pub2 d2 (run cfg pub1 d1 initState).1).2.errors =
      cfg.eventsPerSecond * cfg.durationSeconds +
        cfg.eventsPerSecond * cfg.durationSeconds := by
  have k1 := runIters_accounting pub1
    (cfg.eventsPerSecond * cfg.durationSeconds) 0 initState
  have k2 := runIters_accounting pub2
    (cfg.eventsPerSecond * cfg.durationSeconds) 0
    ((runIters pub1 0 initState (cfg.eventsPerSecond * cfg.durationSeconds)).2)
  constructor
  · show (runWhile pub1 (cfg.eventsPerSecond * cfg.durationSeconds)
        0 initState).2.producedEvents.length +
      (runWhile pub1 (cfg.eventsPerSecond * cfg.durationSeconds)
        0 initState).2.errors = cfg.eventsPerSecond * cfg.durationSeconds
    rw [runWhile, Nat.sub_zero, k1]
    simp [initState]
  · show (runWhile pub2 (cfg.eventsPerSecond * cfg.durationSeconds) 0
        (runWhile pub1 (cfg.eventsPerSecond * cfg.durationSeconds)
          0 initState).2).2.producedEvents.length +
      (runWhile pub2 (cfg.eventsPerSecond * cfg.durationSeconds) 0
        (runWhile pub1 (cfg.eventsPerSecond * cfg.durationSeconds)
          0 initState).2).2.errors =
      cfg.eventsPerSecond * cfg.durationSeconds +
        cfg.eventsPerSecond * cfg.durationSeconds
    rw [runWhile, runWhile, Nat.sub_zero, k2, k1]
    simp [initState]

/-- C10 (witness): the accounting invariant instantiated at
`events_per_second=1, duration_seconds=1` with an always-failing sink. -/
theorem run_accounting_witness :
    (run cfgSingle (fun _ => false) 1 initState).2.totalEvents +
      (run cfgSingle (fun _ => false) 1 initState).2.errors = 1 := by
  have h := (run_accounting cfgSingle (fun _ => false) (fun _ => false) 1 1).1
  simpa [cfgSingle] using h

/-- The sorted latency list is sorted. -/
lemma sortedLatencies_sorted (rs : List ProbeResult) :
    (sortedLatencies rs).Sorted (· ≤ ·) := by
  rw [sortedLatencies]
  exact List.sorted_mergeSort' (consistentLatencies rs)

/-- The sorted latency list is a permutation of the consistent-latency
samples. -/
lemma sortedLatencies_perm (rs : List ProbeResult) :
    (sortedLatencies rs).Perm (consistentLatencies rs) := by
  rw [sortedLatencies]
  exact List.mergeSort_perm (consistentLatencies rs) _

/-- Inversion of the statistics branch of `_analyze_results`: it is only
reached with at least one consistent sample, and each reported field is
the corresponding computation over the consistent samples. -/
lemma analyze_stats_fields (rs : List ProbeResult) (t c w : ℕ)
    (sp p50 p90 p99 mx mn : ℚ)
    (h : analyzeResults rs = .stats t c w sp p50 p90 p99 mx mn) :
    consistentLatencies rs ≠ [] ∧
    p50 = (sortedLatencies rs).getD ((sortedLatencies rs).length / 2) 0 ∧
    p90 = (sortedLatencies rs).getD (9 * (sortedLatencies rs).length / 10) 0 ∧
    p99 = (if 100 < (sortedLatencies rs).length then
      (sortedLatencies rs).getD (99 * (sortedLatencies rs).length / 100) 0
    else (sortedLatencies rs).getLast?.getD 0) ∧
    mx = pymax (consistentLatencies rs) ∧
    mn = pymin (consistentLatencies rs) := by
  rw [analyzeResults] at h
  by_cases h1 : rs.isEmpty
  · rw [if_pos h1] at h
    simp at h
  · rw [if_neg h1] at h
    by_cases h2 : (consistentLatencies rs).isEmpty
    · rw [if_pos h2] at h
      simp at h
    · rw [if_neg h2] at h
      rw [AnalysisResult.stats.injEq] at h
      exact ⟨by simpa [List.isEmpty_iff] using h2,
        h.2.2.2.2.1.symm, h.2.2.2.2.2.1.symm, h.2.2.2.2.2.2.1.symm,
        h.2.2.2.2.2.2.2.1.symm, h.2.2.2.2.2.2.2.2.symm⟩

/-- Evaluation of the analyzer on a single consistent 5 ms sample. -/
lemma analyzeResults_rOk :
    analyzeResults [rOk] = .stats 1 1 1 100 5 5 5 5 5 := by
  have hlat : consistentLatencies [rOk] = [5] := by
    simp [consistentLatencies, rOk]
  have hsort : sortedLatencies [rOk] = [5] := by
    rw [sortedLatencies, hlat]
    simp
  rw [analyzeResults, if_neg (by simp), if_neg (by rw [hlat]; simp)]
  rw [hsort, hlat]
  norm_num [rOk, List.countP_cons, pymax, pymin]

/-- C5: whenever the analyzer reaches its statistics branch, every
nearest-rank index it uses (`n/2`, `⌊0.9n⌋`, and `⌊0.99n⌋` or `n-1`) is in
range of the sorted sample list, and the reported percentiles satisfy
`min ≤ p50 ≤ p90 ≤ p99 ≤ max`. -/
theorem percentiles_ordered (rs : List ProbeResult) (t c w : ℕ)
    (sp p50 p90 p99 mx mn : ℚ)
    (h : analyzeResults rs = .stats t c w sp p50 p90 p99 mx mn) :
    ((sortedLatencies rs).length / 2 < (sortedLatencies rs).length ∧
      9 * (sortedLatencies rs).length / 10 < (sortedLatencies rs).length ∧
      (100 < (sortedLatencies rs).length →
        99 * (sortedLatencies rs).length / 100 < (sortedLatencies rs).length)) ∧
    mn ≤ p50 ∧ p50 ≤ p90 ∧ p90 ≤ p99 ∧ p99 ≤ mx := by
  obtain ⟨hne, hp50, hp90, hp99, hmx, hmn⟩ :=
    analyze_stats_fields rs t c w sp p50 p90 p99 mx mn h
  have hperm := sortedLatencies_perm rs
  have hs := sortedLatencies_sorted rs
  have hn : 1 ≤ (sortedLatencies rs).length := by
    rw [hperm.length_eq]
    exact List.length_pos.mpr hne
  refine ⟨⟨by omega, by omega, by omega⟩, ?_, ?_, ?_, ?_⟩
  · rw [hmn, hp50]
    exact pymin_le_mem _ _ (hperm.mem_iff.mp (getD_mem _ _ (by omega)))
  · rw [hp50, hp90]
    exact sorted_getD_mono _ hs _ _ (by omega) (by omega)
  · rw [hp90, hp99]
    by_cases hc : 100 < (sortedLatencies rs).length
    · rw [if_pos hc]
      exact sorted_getD_mono _ hs _ _ (by omega) (by omega)
    · rw [if_neg hc, List.getLast?_eq_getElem?, ← List.getD_eq_getElem?_getD]
      exact sorted_getD_mono _ hs _ _ (by omega) (by omega)
  · rw [hp99, hmx]
    by_cases hc : 100 < (sortedLatencies rs).length
    · rw [if_pos hc]
      exact mem_le_pymax _ _ (hperm.mem_iff.mp (getD_mem _ _ (by omega)))
    · rw [if_neg hc, List.getLast?_eq_getElem?, ← List.getD_eq_getElem?_getD]
      exact mem_le_pymax _ _ (hperm.mem_iff.mp (getD_mem _ _ (by omega)))

/-- C5 (witness): the percentile ordering instantiated at a single
consistent 5 ms sample, for which the analyzer reports
`p50 = p90 = p99 = min = max = 5`. -/
theorem percentiles_ordered_witness :
    ((sortedLatencies [rOk]).length / 2 < (sortedLatencies [rOk]).length ∧
      9 * (sortedLatencies [rOk]).length / 10 < (sortedLatencies [rOk]).length ∧
      (100 < (sortedLatencies [rOk]).length →
        99 * (sortedLatencies [rOk]).length / 100 <
          (sortedLatencies [rOk]).length)) ∧
    (5 : ℚ) ≤ 5 ∧ (5 : ℚ) ≤ 5 ∧ (5 : ℚ) ≤ 5 ∧ (5 : ℚ) ≤ 5 :=
  percentiles_ordered [rOk] 1 1 1 100 5 5 5 5 5 analyzeResults_rOk

/-- C6: the analyzer returns the explicit `{"error": "No results"}` dict
on an empty result set; on a nonempty result set with no consistent sample
it returns the explicit no-data dict (which carries no percentile field);
and every percentile it does report is drawn from the latencies of the
`consistent == true` samples only. -/
theorem analyze_no_data :
    analyzeResults [] = AnalysisResult.noResults ∧
    (∀ rs : List ProbeResult, rs ≠ [] → (∀ r ∈ rs, r.consistent = false) →
      analyzeResults rs = AnalysisResult.noConsistent rs.length) ∧
    (∀ (rs : List ProbeResult) (t c w : ℕ) (sp p50 p90 p99 mx mn : ℚ),
      analyzeResults rs = .stats t c w sp p50 p90 p99 mx mn →
      p50 ∈ consistentLatencies rs ∧ p90 ∈ consistentLatencies rs ∧
        p99 ∈ consistentLatencies rs) := by
  refine ⟨by simp [analyzeResults], ?_, ?_⟩
  · intro rs h0 hall
    have hlat : consistentLatencies rs = [] := by
      rw [consistentLatencies, List.filterMap_eq_nil_iff]
      intro r hr
      rw [hall r hr]
      simp
    rw [analyzeResults, if_neg (by simpa [List.isEmpty_iff] using h0),
      if_pos (by rw [hlat]; rfl)]
  · intro rs t c w sp p50 p90 p99 mx mn h
    obtain ⟨hne, hp50, hp90, hp99, _, _⟩ :=
      analyze_stats_fields rs t c w sp p50 p90 p99 mx mn h
    have hperm := sortedLatencies_perm rs
    have hn : 1 ≤ (sortedLatencies rs).length := by
      rw [hperm.length_eq]
      exact List.length_pos.mpr hne
    refine ⟨?_, ?_, ?_⟩
    · rw [hp50]
      exact hperm.mem_iff.mp (getD_mem _ _ (by omega))
    · rw [hp90]
      exact hperm.mem_iff.mp (getD_mem _ _ (by omega))
    · rw [hp99]
      by_cases hc : 100 < (sortedLatencies rs).length
      · rw [if_pos hc]
        exact hperm.mem_iff.mp (getD_mem _ _ (by omega))
      · rw [if_neg hc, List.getLast?_eq_getElem?, ← List.getD_eq_getElem?_getD]
        exact hperm.mem_iff.mp (getD_mem _ _ (by omega))

/-- C6 (witness): the no-consistent-sample clause instantiated at a batch
of one non-consistent result. -/
theorem analyze_no_data_witness :
    analyzeResults [rBad] = AnalysisResult.noConsistent 1 := by
  have h := analyze_no_data.2.1 [rBad] (by simp)
    (by intro r hr; simp only [List.mem_singleton] at hr; rw [hr]; rfl)
  simpa using h

/-- C9: an exception raised by one of the gathered probe invocations is
caught (`return_exceptions=True`) and excluded from the collected result
list, leaving the aggregate of the other results unchanged; a batch with
no exceptions aggregates exactly its result dicts. -/
theorem gather_excludes_exceptions :
    (∀ (pre post : List (Except String ProbeResult)) (e : String),
      testPlacementConsistency (pre ++ Except.error e :: post) =
        testPlacementConsistency (pre ++ post)) ∧
    ∀ rs : List ProbeResult,
      testPlacementConsistency (rs.map Except.ok) = analyzeResults rs := by
  constructor
  · intro pre post e
    rw [testPlacementConsistency, testPlacementConsistency]
    simp [List.filterMap_append, Except.toOption]
  · intro rs
    rw [testPlacementConsistency]
    simp [List.filterMap_map, Except.toOption, Function.comp_def]

/-- C9 (witness): a batch consisting of one raised exception aggregates
exactly like the empty batch (to the explicit no-results report). -/
theorem gather_excludes_exceptions_witness :
    testPlacementConsistency [Except.error "boom"] =
      testPlacementConsistency [] := by
  have h := gather_excludes_exceptions.1 [] [] "boom"
  simpa using h

end Nedlia
